import Mathlib

/-!
Verification of the GitHub aggregation services in this repository
(`giter.py` and `MCP_Server/Evaluation_Server.py`) against their
natural-language specification.

The Python code is shallowly embedded: every outbound HTTP response is an
explicit value handed to the embedded function, so each handler becomes a
pure Lean function from responses to the shaped result, paired where needed
with the list of request URLs it issues.
-/

namespace Citi

/-! ## Data model: GitHub API responses as explicit values -/

/-- One element of the JSON array returned by a repository-listing call.
Fields mirror the keys the Python code reads (`private` is spelled
`isPrivate` because `private` is a Lean keyword). -/
structure RepoSummary where
  name : String
  html_url : String
  stargazers_count : ℕ
  forks_count : ℕ
  default_branch : Option String
  languages_url : String
  updated_at : Option String
  owner_login : String
  isPrivate : Bool
  deriving Repr, DecidableEq, Inhabited

/-- Response of a per-repository `languages_url` GET: a status code and the
decoded JSON object mapping language name to byte count (insertion order). -/
structure LangResponse where
  status : ℕ
  langs : List (String × ℕ)
  deriving Repr, DecidableEq, Inhabited

/-- Response of a per-repository commits GET (`per_page=1`): status code, the
optional `Link` header, and the decoded JSON array (items are opaque). -/
structure CommitsResponse where
  status : ℕ
  link : Option String
  body : List Unit
  deriving Repr, DecidableEq, Inhabited

/-- Response of a repository-listing GET: status code, raw text (used in
error messages) and the decoded JSON array of repository summaries. -/
structure ReposResponse where
  status : ℕ
  text : String
  repos : List RepoSummary
  deriving Repr, DecidableEq, Inhabited

/-! ## Link-header parsing

`Evaluation_Server.fetch_repo_details` and `giter.get_github_metrics` both
run `re.search(r'&page=(\d+)>; rel="last"', linkHeader)`.  `searchLastPage`
embeds that search: it scans positions left to right; at a position the
pattern matches iff the text starts with `&page=`, followed by a nonempty
maximal digit run, followed by the literal `>; rel="last"` (the regex's
greedy `\d+` can only succeed on the maximal run, since backtracking would
place a digit where `>` is required). -/

/-- The digits of `match.group(1)` converted to a number, as `int(...)`. -/
def digitsToNat (ds : List Char) : ℕ :=
  ds.foldl (fun a c => a * 10 + (c.toNat - '0'.toNat)) 0

/-- The literal part of the regex before the digit group. -/
def pagePat : List Char := "&page=".toList

/-- The literal part of the regex after the digit group. -/
def lastRelTail : List Char := ">; rel=\"last\"".toList

/-- Try to match `&page=(\d+)>; rel="last"` at the start of `u`: the six
literal characters, then the (maximal, nonempty) digit run, then the
closing literal. -/
def matchAt (u : List Char) : Option ℕ :=
  if pagePat.isPrefixOf u then
    if ((u.drop 6).takeWhile Char.isDigit).isEmpty then none
    else if lastRelTail.isPrefixOf ((u.drop 6).dropWhile Char.isDigit) then
      some (digitsToNat ((u.drop 6).takeWhile Char.isDigit))
    else none
  else none

/-- `re.search` for the commit-count pattern: first position where the
pattern matches, scanning left to right. -/
def searchLastPage : List Char → Option ℕ
  | [] => none
  | c :: rest =>
    match matchAt (c :: rest) with
    | some n => some n
    | none => searchLastPage rest

/-! ## Commit counting -/

/-- Commit count derived from one commits response in
`Evaluation_Server.fetch_repo_details` (lines 36–43): `commits` starts at 0;
only a 200 response is inspected; with a `Link` header the regex result is
used (0 when it does not match), without one the length of the body. -/
def dashCommitCount (resp : CommitsResponse) : ℕ :=
  if resp.status = 200 then
    match resp.link with
    | some l =>
      match searchLastPage l.toList with
      | some n => n
      | none => 0
    | none => resp.body.length
  else 0

/-- Commit count derived from one commits response in
`giter.get_github_metrics` (lines 261–270): no status check; with a `Link`
header the regex result is used but a non-matching header contributes 1;
without a `Link` header the length of the body. -/
def metricsCommitCount (resp : CommitsResponse) : ℕ :=
  match resp.link with
  | some l =>
    match searchLastPage l.toList with
    | some n => n
    | none => 1
  | none => resp.body.length

/-! ## Per-repository detail fetching (`Evaluation_Server.fetch_repo_details`) -/

/-- The per-repository result dict built by `fetch_repo_details`. -/
structure RepoDetails where
  name : String
  url : String
  stars : ℕ
  forks : ℕ
  languages : List String
  commits : ℕ
  deriving Repr, DecidableEq, Inhabited

/-- The commits request URL built in `fetch_repo_details` (line 34). -/
def commitsUrl (username repoName branch : String) : String :=
  "https://api.github.com/repos/" ++ username ++ "/" ++ repoName ++
    "/commits?per_page=1&sha=" ++ branch

/-- `Evaluation_Server.fetch_repo_details` with the two outbound responses
passed in explicitly: a non-200 languages response degrades to `[]`;
`commits` stays 0 when `default_branch` is missing or falsy (empty). -/
def fetch_repo_details (repo : RepoSummary) (langResp : LangResponse)
    (commitsResp : CommitsResponse) : RepoDetails :=
  { name := repo.name
    url := repo.html_url
    stars := repo.stargazers_count
    forks := repo.forks_count
    languages := if langResp.status = 200 then langResp.langs.map Prod.fst else []
    commits :=
      match repo.default_branch with
      | none => 0
      | some d => if d = "" then 0 else dashCommitCount commitsResp }

/-- The request URLs `fetch_repo_details` issues for one repository: the
languages URL always, the commits URL only when `default_branch` is truthy. -/
def repoRequestUrls (username : String) (repo : RepoSummary) : List String :=
  repo.languages_url ::
    (match repo.default_branch with
     | none => []
     | some d => if d = "" then [] else [commitsUrl username repo.name d])

/-! ## The concurrent fan-out (`asyncio.gather`)

`github_dashboard_analysis` builds one task per repository and joins them
with `asyncio.gather`, which stores each task's result at the task's index
no matter when it completes.  `asyncGather` models one execution: `order`
is the sequence of indices in completion order; each completion appends
`(index, result)` to a log, and the join reads the log back by index. -/

/-- Completion log of one execution: results tagged with their task index,
listed in completion order. -/
def completionLog (f : RepoSummary → RepoDetails) (xs : List RepoSummary)
    (order : List ℕ) : List (ℕ × RepoDetails) :=
  order.map (fun i => (i, f (xs.getD i default)))

/-- Join of `asyncio.gather`: slot `i` of the result is the logged result of
task `i`, regardless of where it sits in the completion order. -/
def asyncGather (f : RepoSummary → RepoDetails) (xs : List RepoSummary)
    (order : List ℕ) : List RepoDetails :=
  (List.range xs.length).map (fun i => ((completionLog f xs order).lookup i).getD default)

/-! ## Dashboard operation (`Evaluation_Server.github_dashboard_analysis`) -/

/-- Result shapes of `github_dashboard_analysis`. -/
inductive DashResult where
  | error (msg : String)
  | noRepos (username message : String)
  | dashboard (username : String) (total_repositories total_commits total_stars
      total_forks total_languages : ℕ) (repos : List RepoDetails)
  deriving Repr, DecidableEq

/-- Whether a dashboard result is the error dict. -/
def DashResult.isErr : DashResult → Bool
  | .error _ => true
  | _ => false

/-- The repository-listing URL of the dashboard operation (line 53). -/
def dashboardReposUrl (username : String) : String :=
  "https://api.github.com/users/" ++ username ++ "/repos?per_page=100&type=owner"

/-- `github_dashboard_analysis` with the repository-listing response and the
two per-repository response oracles passed in explicitly; also returns the
list of request URLs issued. -/
def github_dashboard_analysis (username : String) (reposResp : ReposResponse)
    (langOf : RepoSummary → LangResponse) (commitsOf : RepoSummary → CommitsResponse) :
    DashResult × List String :=
  let log0 := [dashboardReposUrl username]
  if reposResp.status ≠ 200 then
    (.error ("Failed to fetch repositories: " ++ reposResp.text), log0)
  else if reposResp.repos.isEmpty then
    (.noRepos username "No repositories found", log0)
  else
    let details := reposResp.repos.map (fun r => fetch_repo_details r (langOf r) (commitsOf r))
    (.dashboard username details.length
      (details.map (fun r => r.commits)).sum
      (details.map (fun r => r.stars)).sum
      (details.map (fun r => r.forks)).sum
      (details.flatMap (fun r => r.languages)).dedup.length
      details,
     log0 ++ reposResp.repos.flatMap (repoRequestUrls username))

/-! ## Proficiency operation (`Evaluation_Server.get_github_proficiency`) -/

/-- Round an exact rational to the nearest integer, ties to even — the ideal
semantics of Python's built-in `round` (our inputs of interest are never at
a floating-point tie, so the binary-float detail does not matter). -/
def roundHalfEven (x : ℚ) : ℤ :=
  let n := Int.floor x
  let f := x - n
  if f < 1/2 then n
  else if 1/2 < f then n + 1
  else if n % 2 = 0 then n else n + 1

/-- Python's `round(x, 2)`. -/
def round2 (x : ℚ) : ℚ := (roundHalfEven (x * 100) : ℚ) / 100

/-- `all_languages[lang] = all_languages.get(lang, 0) + bytes_used` on an
insertion-ordered association list (Python dict semantics). -/
def bumpLang (m : List (String × ℕ)) (lang : String) (bytes : ℕ) : List (String × ℕ) :=
  match m with
  | [] => [(lang, bytes)]
  | (k, v) :: rest =>
    if k = lang then (k, v + bytes) :: rest else (k, v) :: bumpLang rest lang bytes

/-- Fold one repository's language map into the running `all_languages` dict
(the inner `for lang, bytes_used in langs.items()` loop). -/
def mergeLangs (m : List (String × ℕ)) (langs : List (String × ℕ)) : List (String × ℕ) :=
  langs.foldl (fun acc p => bumpLang acc p.1 p.2) m

/-- `total_bytes = sum(all_languages.values()) or 1` (line 136): the sum,
defaulted to 1 when it is zero. -/
def totalBytesDen (m : List (String × ℕ)) : ℚ :=
  let s := (m.map Prod.snd).sum
  if s = 0 then 1 else (s : ℚ)

/-- The `lang_percentage` comprehension (lines 137–140): each language maps
to `round(bytes_used / total_bytes * 100, 2)`. -/
def lang_percentage (m : List (String × ℕ)) : List (String × ℚ) :=
  m.map (fun p => (p.1, round2 ((p.2 : ℚ) / totalBytesDen m * 100)))

/-- Result shapes of `get_github_proficiency`. -/
inductive ProfResult where
  | error (msg : String)
  | noRepos (username message : String)
  | profile (username : String) (total_repos total_languages total_stars total_forks : ℕ)
      (recent_activity_score : ℤ) (languages : List (String × ℕ))
      (language_percentage : List (String × ℚ))
  deriving Repr, DecidableEq

/-- Loop state of the `for repo in repos` loop of `get_github_proficiency`,
together with the request URLs issued so far. -/
structure ProfAcc where
  all_languages : List (String × ℕ)
  total_stars : ℕ
  total_forks : ℕ
  recent_commit_score : ℤ
  log : List String
  deriving Repr, DecidableEq

/-- One iteration of the proficiency loop (lines 113–133).  `parse` models
`(datetime.now(utc) - datetime.fromisoformat(s.replace("Z", "+00:00"))).days`;
it returns `none` when `fromisoformat` raises `ValueError`, which the Python
code does not catch, so the whole operation errors.  A missing or empty
`updated_at` is falsy and skipped.  A non-200 languages response contributes
no language bytes. -/
def profStep (parse : String → Option ℤ) (langOf : RepoSummary → LangResponse)
    (acc : ProfAcc) (repo : RepoSummary) : Except String ProfAcc := do
  let score ←
    match repo.updated_at with
    | none => pure acc.recent_commit_score
    | some s =>
      if s = "" then pure acc.recent_commit_score
      else
        match parse s with
        | none => throw "ValueError: Invalid isoformat string"
        | some deltaDays => pure (acc.recent_commit_score + max 0 (100 - deltaDays))
  let langResp := langOf repo
  let langs := if langResp.status = 200 then langResp.langs else []
  pure
    { all_languages := mergeLangs acc.all_languages langs
      total_stars := acc.total_stars + repo.stargazers_count
      total_forks := acc.total_forks + repo.forks_count
      recent_commit_score := score
      log := acc.log ++ [repo.languages_url] }

/-- The repository-listing URL of the proficiency operation (line 97). -/
def proficiencyReposUrl (username : String) : String :=
  "https://api.github.com/users/" ++ username ++ "/repos?per_page=100&type=owner&sort=updated"

/-- `get_github_proficiency` with explicit responses; `.error` on the outside
`Except` is an uncaught Python exception (the operation crashing), while
`ProfResult.error` is the error dict it returns on a failed listing call.
The second component is the list of request URLs issued. -/
def get_github_proficiency (username : String) (parse : String → Option ℤ)
    (reposResp : ReposResponse) (langOf : RepoSummary → LangResponse) :
    Except String (ProfResult × List String) :=
  let log0 := [proficiencyReposUrl username]
  if reposResp.status ≠ 200 then
    .ok (.error ("Error fetching repositories for " ++ username ++ ": " ++ reposResp.text), log0)
  else if reposResp.repos.isEmpty then
    .ok (.noRepos username "No public repositories found", log0)
  else do
    let acc ← reposResp.repos.foldlM (profStep parse langOf)
      { all_languages := [], total_stars := 0, total_forks := 0
        recent_commit_score := 0, log := log0 }
    pure
      (.profile username reposResp.repos.length acc.all_languages.length
        acc.total_stars acc.total_forks acc.recent_commit_score
        acc.all_languages (lang_percentage acc.all_languages),
       acc.log)

/-- Python's `str.lower()` (only ASCII identifiers are compared in this
code), written over the character list so that it is computable by the
kernel; it agrees with `String.toLower`. -/
def pyLower (s : String) : String := String.mk (s.data.map Char.toLower)

/-! ## GitHub client adapter (`giter.github_api_request`) -/

/-- A `fastapi.HTTPException` as raised by `github_api_request`. -/
structure HttpError where
  status : ℕ
  detail : String
  deriving Repr, DecidableEq

/-- `requests.Response.ok`: the `requests` library defines `ok` via
`raise_for_status`, which raises `HTTPError` exactly for
`400 <= status_code < 500` (client error) and `500 <= status_code < 600`
(server error); every other status — 1xx/2xx/3xx but also nonstandard
codes of 600 and above — leaves `ok` true. -/
def respOk (status : ℕ) : Bool :=
  if 400 ≤ status ∧ status < 600 then false else true

/-- An upstream HTTP response as seen by `github_api_request`: status code,
raw text, and the decoded JSON payload (abstracted to a type parameter). -/
structure GResponse (J : Type) where
  status : ℕ
  text : String
  json : J
  deriving Repr, DecidableEq

/-- `giter.github_api_request` (lines 71–82) with the upstream response
passed in explicitly: 404 and 403 map to fixed `HTTPException`s, any other
not-`ok` response maps to an `HTTPException` carrying status and body, and
an `ok` response returns the decoded JSON. -/
def github_api_request {J : Type} (resp : GResponse J) : Except HttpError J :=
  if resp.status = 404 then .error ⟨404, "User or resource not found."⟩
  else if resp.status = 403 then .error ⟨403, "API rate limit exceeded or access denied."⟩
  else if respOk resp.status = false then
    .error ⟨resp.status, "GitHub API error: " ++ resp.text⟩
  else .ok resp.json

/-! ## Organization visibility (`giter.get_github_user`, lines 126–142) -/

/-- One organization object (fields read by the Python model). -/
structure Org where
  login : String
  url : String
  avatar_url : String
  deriving Repr, DecidableEq

/-- The three organization-related upstream calls of `get_github_user`, each
already classified by `github_api_request`: `GET /user` (the token-ownership
probe, yielding the authenticated login), `GET /user/orgs` (public and
private memberships of the token owner), and `GET /users/{username}/orgs`
(public memberships of the requested user). -/
structure OrgApi where
  authUser : Except HttpError String
  userOrgs : Except HttpError (List Org)
  publicOrgs : Except HttpError (List Org)

/-- The organizations step of `get_github_user`: with a token, probe `GET
/user`; if the token owner's login equals the requested username
case-insensitively, fetch `/user/orgs`, else fetch the public orgs; any
error inside the `try` block falls back to the public orgs; without a
token, fetch the public orgs. -/
def get_github_user_orgs (username : String) (token : Option String)
    (api : OrgApi) : Except HttpError (List Org) :=
  match token with
  | some _ =>
    let attempt : Except HttpError (List Org) := do
      let login ← api.authUser
      if pyLower login = pyLower username then api.userOrgs else api.publicOrgs
    match attempt with
    | .ok orgs => .ok orgs
    | .error _ => api.publicOrgs
  | none => api.publicOrgs

/-! ## Private repositories (`giter.get_private_repos`, lines 178–235) -/

/-- The repository model (`Repo`) that `get_private_repos` returns in its
summary shape.  In the source `updated_at` is declared `str` (required, not
optional), so the field here is a plain `String`. -/
structure RepoModel where
  name : String
  html_url : String
  stargazers_count : ℕ
  forks_count : ℕ
  updated_at : String
  deriving Repr, DecidableEq

/-- Construction of the `Repo` pydantic model from a listing entry
(`Repo(name=r["name"], ..., updated_at=r["updated_at"])`): when the entry
has no string `updated_at`, the lookup/validation raises (a missing key is
a `KeyError`, a `None` value a pydantic `ValidationError`), modelled as the
error case. -/
def toRepoModel (r : RepoSummary) : Except String RepoModel :=
  match r.updated_at with
  | none => .error "validation error for Repo: updated_at"
  | some ts =>
    .ok { name := r.name, html_url := r.html_url, stargazers_count := r.stargazers_count
          forks_count := r.forks_count, updated_at := ts }

/-- The list comprehension `[Repo(...) for r in filtered_repos]`: models are
built in list order and the first raising conversion aborts the whole
comprehension. -/
def buildRepoModels : List RepoSummary → Except String (List RepoModel)
  | [] => .ok []
  | r :: rest =>
    match toRepoModel r with
    | .error e => .error e
    | .ok m =>
      match buildRepoModels rest with
      | .error e => .error e
      | .ok ms => .ok (m :: ms)

/-- The two structurally different success results of `get_private_repos`:
a bare empty JSON list, or a dict with username, count and repos. -/
inductive PrivResult where
  | emptyList
  | summary (username : String) (private_repositories_count : ℕ)
      (private_repositories : List RepoModel)
  deriving Repr, DecidableEq

/-- `giter.get_private_repos` with the classified results of its two
upstream calls passed in: `userRepos` is `github_api_request` on
`GET /user/repos?...type=private`, `verifyUser` on `GET /users/{username}`.
An empty token fails with 400; the listing is filtered to repositories
owned by the requested username (case-insensitively) and marked private;
an empty filter result verifies the user exists and returns a bare `[]`;
otherwise the pydantic models are built (a validation failure is caught by
`except Exception` and re-raised as a 500) and a summary dict is returned
whose count is the length of the model list. -/
def get_private_repos (username token : String)
    (userRepos : Except HttpError (List RepoSummary))
    (verifyUser : Except HttpError Unit) : Except HttpError PrivResult :=
  if token = "" then
    .error ⟨400, "GitHub token is required to access private repositories"⟩
  else
    match userRepos with
    | .error e => .error e
    | .ok repos =>
      let filtered := repos.filter
        (fun r => pyLower r.owner_login == pyLower username && r.isPrivate)
      if filtered.isEmpty then
        match verifyUser with
        | .error e => .error e
        | .ok _ => .ok .emptyList
      else
        match buildRepoModels filtered with
        | .error e => .error ⟨500, "Error fetching private repositories: " ++ e⟩
        | .ok private_repos => .ok (.summary username private_repos.length private_repos)

/-! ## Helper lemmas -/

theorem takeWhile_all_append (p : Char → Bool) (ds : List Char)
    (hds : ∀ c ∈ ds, p c = true) (h : Char) (hh : p h = false) (t : List Char) :
    (ds ++ h :: t).takeWhile p = ds := by
  induction ds with
  | nil => simp [List.takeWhile, hh]
  | cons c cs ih =>
    have hc : p c = true := hds c (List.mem_cons_self c cs)
    have ih' := ih (fun d hd => hds d (List.mem_cons_of_mem c hd))
    simp [List.takeWhile_cons, hc, ih']

theorem dropWhile_all_append (p : Char → Bool) (ds : List Char)
    (hds : ∀ c ∈ ds, p c = true) (h : Char) (hh : p h = false) (t : List Char) :
    (ds ++ h :: t).dropWhile p = h :: t := by
  induction ds with
  | nil => simp [List.dropWhile, hh]
  | cons c cs ih =>
    have hc : p c = true := hds c (List.mem_cons_self c cs)
    simp only [List.cons_append, List.dropWhile_cons, hc]
    exact ih (fun d hd => hds d (List.mem_cons_of_mem c hd))

theorem isPrefixOf_append (l t : List Char) : l.isPrefixOf (l ++ t) = true :=
  List.isPrefixOf_iff_prefix.2 (List.prefix_append l t)

theorem matchAt_start (ds post : List Char) (hne : ds ≠ [])
    (hdig : ∀ c ∈ ds, c.isDigit = true) :
    matchAt (pagePat ++ (ds ++ (lastRelTail ++ post))) = some (digitsToNat ds) := by
  have htail : lastRelTail ++ post = '>' :: ("; rel=\"last\"".toList ++ post) := rfl
  have hgt : ('>' : Char).isDigit = false := by decide
  unfold matchAt
  rw [isPrefixOf_append]
  have hdrop : (pagePat ++ (ds ++ (lastRelTail ++ post))).drop 6 = ds ++ (lastRelTail ++ post) := by
    have : (6 : ℕ) = pagePat.length := by decide
    rw [this, List.drop_left]
  simp only [if_pos rfl, hdrop]
  rw [htail, takeWhile_all_append _ ds hdig _ hgt, dropWhile_all_append _ ds hdig _ hgt]
  have hne' : ds.isEmpty = false := by
    cases ds with
    | nil => exact absurd rfl hne
    | cons a as => rfl
  rw [hne']
  simp only [Bool.false_eq_true, if_false]
  rw [show ('>' :: ("; rel=\"last\"".toList ++ post)) = lastRelTail ++ post from rfl]
  rw [isPrefixOf_append]
  simp

/-- Whether `seg` occurs as a contiguous segment of `l` (used to state that
a header has no earlier `>; rel="last"` terminator: GitHub emits a single
"last" relation link, so everything before its `page` parameter — other
query parameters such as `&sha=...`, and earlier links such as
`rel="next"` — contains no such terminator). -/
def containsSeg (seg : List Char) : List Char → Bool
  | [] => seg.isEmpty
  | c :: rest => seg.isPrefixOf (c :: rest) || containsSeg seg rest

theorem containsSeg_nil (l : List Char) : containsSeg [] l = true := by
  cases l with
  | nil => rfl
  | cons c rest =>
    rw [containsSeg]
    simp [List.isPrefixOf]

theorem containsSeg_here (seg b : List Char) : containsSeg seg (seg ++ b) = true := by
  cases seg with
  | nil =>
    rw [List.nil_append]
    exact containsSeg_nil b
  | cons s ss =>
    rw [List.cons_append, containsSeg, ← List.cons_append, isPrefixOf_append, Bool.true_or]

theorem containsSeg_append_self (a seg b : List Char) :
    containsSeg seg (a ++ (seg ++ b)) = true := by
  induction a with
  | nil =>
    rw [List.nil_append]
    exact containsSeg_here seg b
  | cons c a ih =>
    rw [List.cons_append, containsSeg, ih, Bool.or_true]

/-- Inversion of a successful `matchAt`: the scanned text decomposes as
`&page=`, a nonempty run of digits, the `>; rel="last"` terminator, and a
remainder. -/
theorem matchAt_some_decomp (u : List Char) (m : ℕ) (h : matchAt u = some m) :
    ∃ e tail, u = pagePat ++ (e ++ (lastRelTail ++ tail)) ∧ e ≠ [] ∧
      ∀ c ∈ e, c.isDigit = true := by
  rw [matchAt] at h
  split at h
  case isTrue hp =>
    obtain ⟨r0, hr0⟩ := List.isPrefixOf_iff_prefix.1 hp
    subst hr0
    have hdrop : (pagePat ++ r0).drop 6 = r0 := by
      rw [show (6 : ℕ) = pagePat.length from rfl, List.drop_left]
    rw [hdrop] at h
    split at h
    case isTrue => exact Option.noConfusion h
    case isFalse hempty =>
      split at h
      case isFalse => exact Option.noConfusion h
      case isTrue hlp =>
        obtain ⟨tl, htl⟩ := List.isPrefixOf_iff_prefix.1 hlp
        refine ⟨r0.takeWhile Char.isDigit, tl, ?_, ?_, ?_⟩
        · rw [htl, List.takeWhile_append_dropWhile]
        · intro hnil
          rw [hnil] at hempty
          exact hempty rfl
        · exact fun c hc => List.mem_takeWhile_imp hc
  case isFalse => exact Option.noConfusion h

/-- No match can start strictly before the displayed `&page=` segment when
the text before it contains no `>; rel="last"` terminator. -/
theorem matchAt_none_before (w ds post : List Char) (hwne : w ≠ [])
    (hcont : containsSeg lastRelTail w = false) (hne : ds ≠ [])
    (hdig : ∀ c ∈ ds, c.isDigit = true) :
    matchAt (w ++ (pagePat ++ (ds ++ (lastRelTail ++ post)))) = none := by
  cases hm : matchAt (w ++ (pagePat ++ (ds ++ (lastRelTail ++ post)))) with
  | none => rfl
  | some m =>
    exfalso
    obtain ⟨e, tail, hu, hene, hedig⟩ := matchAt_some_decomp _ m hm
    rw [show pagePat ++ (e ++ (lastRelTail ++ tail)) =
        ((pagePat ++ e) ++ lastRelTail) ++ tail by simp [List.append_assoc]] at hu
    rcases List.append_eq_append_iff.1 hu with ⟨x, hx1, hx2⟩ | ⟨y, hy1, _⟩
    · -- the match's prefix-plus-terminator ends at or before our segment
      rcases List.append_eq_append_iff.1 hx1 with ⟨a2, ha1, ha2⟩ | ⟨c2, hc1, hc2⟩
      · -- w extends into the terminator
        cases x with
        | nil =>
          rw [List.append_nil] at ha2
          rw [ha1, ha2, show (pagePat ++ e) ++ a2 = (pagePat ++ e) ++ (a2 ++ []) by
              rw [List.append_nil],
            containsSeg_append_self (pagePat ++ e) a2 []] at hcont
          exact Bool.noConfusion hcont
        | cons x0 xt =>
          have hx0seg : pagePat ++ (ds ++ (lastRelTail ++ post)) = x0 :: (xt ++ tail) := by
            rw [hx2, List.cons_append]
          rw [show pagePat = '&' :: "page=".toList from rfl, List.cons_append] at hx0seg
          injection hx0seg with hx0 _
          have hx0mem : x0 ∈ lastRelTail := by
            rw [ha2]
            exact List.mem_append_right a2 (List.mem_cons_self x0 xt)
          rw [← hx0] at hx0mem
          exact absurd hx0mem (by decide)
      · -- the terminator of the match lies at or after our segment start
        have hx2' : pagePat ++ (ds ++ (lastRelTail ++ post)) = c2 ++ (lastRelTail ++ tail) := by
          rw [hx2, hc2, List.append_assoc]
        rcases List.append_eq_append_iff.1 hx2' with ⟨z, hz1, _⟩ | ⟨v, hv1, hv2⟩
        · -- c2 extends past the pattern literal, so w ++ c2 puts a second
          -- '&' inside pagePat ++ e
          have hc1' : pagePat ++ e = w ++ (pagePat ++ z) := by rw [hc1, hz1]
          rcases List.append_eq_append_iff.1 hc1' with ⟨a3, hα1, hα2⟩ | ⟨b3, hβ1, hβ2⟩
          · have hamp : '&' ∈ e := by
              rw [hα2]
              exact List.mem_append_right a3 (List.mem_append_left z (by decide))
            exact absurd (hedig '&' hamp) (by decide)
          · cases w with
            | nil => exact hwne rfl
            | cons w0 wt =>
              rw [show pagePat = '&' :: "page=".toList from rfl, List.cons_append] at hβ1
              injection hβ1 with hw0 hrest
              cases b3 with
              | nil =>
                rw [List.nil_append] at hβ2
                have hamp : '&' ∈ e := by
                  rw [← hβ2]
                  exact List.mem_append_left z (by decide)
                exact absurd (hedig '&' hamp) (by decide)
              | cons b0 bt =>
                rw [show pagePat = '&' :: "page=".toList from rfl, List.cons_append,
                  List.cons_append] at hβ2
                injection hβ2 with hb0 _
                have hb0mem : b0 ∈ "page=".toList := by
                  rw [hrest]
                  exact List.mem_append_right wt (List.mem_cons_self b0 bt)
                rw [← hb0] at hb0mem
                exact absurd hb0mem (by decide)
        · -- the terminator would have to start inside `&page=` or the digits
          cases v with
          | nil =>
            rw [List.nil_append] at hv2
            cases ds with
            | nil => exact hne rfl
            | cons d0 dt =>
              rw [show lastRelTail = '>' :: "; rel=\"last\"".toList from rfl,
                List.cons_append, List.cons_append] at hv2
              injection hv2 with hd0 _
              have := hdig d0 (List.mem_cons_self d0 dt)
              rw [← hd0] at this
              exact absurd this (by decide)
          | cons v0 vt =>
            rw [show lastRelTail = '>' :: "; rel=\"last\"".toList from rfl,
              List.cons_append, List.cons_append] at hv2
            injection hv2 with hv0 _
            have hv0mem : v0 ∈ pagePat := by
              rw [hv1]
              exact List.mem_append_right c2 (List.mem_cons_self v0 vt)
            rw [← hv0] at hv0mem
            exact absurd hv0mem (by decide)
    · -- the whole match, terminator included, sits inside w
      rw [hy1, List.append_assoc] at hcont
      rw [containsSeg_append_self (pagePat ++ e) lastRelTail y] at hcont
      exact Bool.noConfusion hcont

/-- `re.search` finds the displayed `&page=N>; rel="last"` segment whenever
no `>; rel="last"` occurs earlier in the header. -/
theorem searchLastPage_first (ws ds post : List Char)
    (hws : containsSeg lastRelTail ws = false) (hne : ds ≠ [])
    (hdig : ∀ c ∈ ds, c.isDigit = true) :
    searchLastPage (ws ++ (pagePat ++ (ds ++ (lastRelTail ++ post)))) = some (digitsToNat ds) := by
  induction ws with
  | nil =>
    rw [List.nil_append]
    have hshape : pagePat ++ (ds ++ (lastRelTail ++ post)) =
        '&' :: ("page=".toList ++ (ds ++ (lastRelTail ++ post))) := rfl
    rw [hshape, searchLastPage, ← hshape, matchAt_start ds post hne hdig]
  | cons c ws ih =>
    have hw : containsSeg lastRelTail (c :: ws) = false := hws
    rw [containsSeg, Bool.or_eq_false_iff] at hws
    rw [List.cons_append, searchLastPage,
      show c :: (ws ++ (pagePat ++ (ds ++ (lastRelTail ++ post)))) =
        (c :: ws) ++ (pagePat ++ (ds ++ (lastRelTail ++ post))) from rfl,
      matchAt_none_before (c :: ws) ds post (by simp) hw hne hdig]
    exact ih hws.2

theorem lookup_map_pair {β : Type} (g : ℕ → β) (l : List ℕ) (i : ℕ) (hi : i ∈ l) :
    (l.map (fun j => (j, g j))).lookup i = some (g i) := by
  induction l with
  | nil => cases hi
  | cons a l ih =>
    by_cases h : i = a
    · subst h
      simp [List.lookup]
    · rcases List.mem_cons.1 hi with h' | h'
      · exact absurd h' h
      · have hba : (i == a) = false := beq_eq_false_iff_ne.mpr h
        simp only [List.map_cons, List.lookup, hba]
        exact ih h'

theorem range_map_getD {α β : Type} [Inhabited α] (f : α → β) (xs : List α) :
    (List.range xs.length).map (fun i => f (xs.getD i default)) = xs.map f := by
  induction xs with
  | nil => simp
  | cons x xs ih =>
    rw [List.length_cons, List.range_succ_eq_map, List.map_cons, List.map_map, List.map_cons]
    simp only [Function.comp_def, List.getD_cons_zero, List.getD_cons_succ]
    rw [ih]

theorem asyncGather_eq_map (f : RepoSummary → RepoDetails) (xs : List RepoSummary)
    (order : List ℕ) (h : order.Perm (List.range xs.length)) :
    asyncGather f xs order = xs.map f := by
  unfold asyncGather completionLog
  have hlook : ∀ i ∈ List.range xs.length,
      ((order.map (fun j => (j, f (xs.getD j default)))).lookup i).getD default =
        f (xs.getD i default) := by
    intro i hi
    rw [lookup_map_pair (fun j => f (xs.getD j default)) order i (h.mem_iff.2 hi)]
    rfl
  rw [List.map_congr_left hlook]
  exact range_map_getD f xs

theorem roundHalfEven_close (x : ℚ) : |(roundHalfEven x : ℚ) - x| ≤ 1/2 := by
  have hfl : (Int.floor x : ℚ) ≤ x := Int.floor_le x
  have hfu : x < (Int.floor x : ℚ) + 1 := Int.lt_floor_add_one x
  unfold roundHalfEven
  by_cases h1 : x - (Int.floor x : ℚ) < 1/2
  · rw [if_pos h1, abs_sub_comm, abs_of_nonneg (by linarith)]
    linarith
  · rw [if_neg h1]
    by_cases h2 : (1:ℚ)/2 < x - (Int.floor x : ℚ)
    · rw [if_pos h2]
      push_cast
      rw [abs_of_nonneg (by linarith)]
      linarith
    · have heq : x - (Int.floor x : ℚ) = 1/2 := le_antisymm (not_lt.1 h2) (not_lt.1 h1)
      by_cases h3 : Int.floor x % 2 = 0
      · rw [if_neg h2, if_pos h3, abs_sub_comm, abs_of_nonneg (by linarith)]
        linarith
      · rw [if_neg h2, if_neg h3]
        push_cast
        rw [abs_of_nonneg (by linarith)]
        linarith

theorem round2_close (x : ℚ) : |round2 x - x| ≤ 1/200 := by
  have h := roundHalfEven_close (x * 100)
  have heq : round2 x - x = ((roundHalfEven (x * 100) : ℚ) - x * 100) / 100 := by
    unfold round2
    ring
  rw [heq, abs_div, abs_of_pos (by norm_num : (0:ℚ) < 100)]
  linarith [h]

theorem sum_map_close {α : Type} (f g : α → ℚ) (c : ℚ) (l : List α)
    (h : ∀ a ∈ l, |f a - g a| ≤ c) :
    |(l.map f).sum - (l.map g).sum| ≤ l.length * c := by
  induction l with
  | nil => simp
  | cons a l ih =>
    have ha := h a (List.mem_cons_self a l)
    have ih' := ih (fun b hb => h b (List.mem_cons_of_mem a hb))
    simp only [List.map_cons, List.sum_cons, List.length_cons]
    have : f a + (l.map f).sum - (g a + (l.map g).sum) =
        (f a - g a) + ((l.map f).sum - (l.map g).sum) := by ring
    rw [this]
    calc |(f a - g a) + ((l.map f).sum - (l.map g).sum)|
        ≤ |f a - g a| + |(l.map f).sum - (l.map g).sum| := abs_add _ _
      _ ≤ c + l.length * c := add_le_add ha ih'
      _ = (l.length + 1) * c := by ring
      _ = ((l.length + 1 : ℕ) : ℚ) * c := by push_cast; ring

theorem sum_exact_pcts (m : List (String × ℕ)) (hpos : 0 < (m.map Prod.snd).sum) :
    (m.map (fun p => (p.2 : ℚ) / totalBytesDen m * 100)).sum = 100 := by
  have hne : (m.map Prod.snd).sum ≠ 0 := Nat.pos_iff_ne_zero.mp hpos
  have hden : totalBytesDen m = ((m.map Prod.snd).sum : ℚ) := by
    unfold totalBytesDen
    rw [if_neg hne]
  set s : ℚ := ((m.map Prod.snd).sum : ℚ) with hs
  have hsne : s ≠ 0 := by
    rw [hs]
    exact_mod_cast hne
  have h1 : ∀ p : String × ℕ, (p.2 : ℚ) / totalBytesDen m * 100 = (p.2 : ℚ) * (100 / s) := by
    intro p
    rw [hden]
    field_simp
  calc (m.map (fun p => (p.2 : ℚ) / totalBytesDen m * 100)).sum
      = (m.map (fun p => (p.2 : ℚ) * (100 / s))).sum := by
        rw [List.map_congr_left (fun p _ => h1 p)]
    _ = (m.map (fun p => (p.2 : ℚ))).sum * (100 / s) := by
        rw [← List.sum_map_mul_right]
    _ = s * (100 / s) := by
        congr 1
        rw [hs, Nat.cast_list_sum (m.map Prod.snd), List.map_map]
        simp [Function.comp_def]
    _ = 100 := by field_simp

theorem roundHalfEven_up (x : ℚ) (n : ℤ) (h1 : (n : ℚ) ≤ x) (h2 : x < (n : ℚ) + 1)
    (hgt : 1/2 < x - (n : ℚ)) : roundHalfEven x = n + 1 := by
  have hfl : Int.floor x = n := Int.floor_eq_iff.2 ⟨h1, by exact_mod_cast h2⟩
  unfold roundHalfEven
  rw [hfl, if_neg (by linarith), if_pos hgt]

theorem round2_five_thirds : round2 (5/3) = 167/100 := by
  have h : roundHalfEven ((5:ℚ)/3 * 100) = 167 := by
    have := roundHalfEven_up ((5:ℚ)/3 * 100) 166 (by norm_num) (by norm_num) (by norm_num)
    rw [this]
    rfl
  unfold round2
  rw [h]
  norm_num

/-! ## Spec-side predicates -/

/-- The spec's phrase "the `Link` header contains a \"last\" relation link
with a `page=N` parameter", in the format the spec's scenario displays
(`<...page=N>; rel="last"`): somewhere in the header the text `page=N`
immediately precedes the link terminator `>; rel="last"`. -/
def specLinkHasLastPage (s : String) (n : ℕ) : Prop :=
  ∃ a b, s.toList = a ++ ("page=" ++ toString n ++ ">; rel=\"last\"").toList ++ b

/-! ## Claims -/

/-- C1 (amended): for a repository with a truthy default branch, the
dashboard fetcher's commits request URL carries `per_page=1`, and on a
status-200 commits response whose `Link` header contains the "last"
relation link's page parameter as a segment `&page=N>; rel="last"` — with
no `>; rel="last"` terminator earlier in the header, which holds of real
headers since GitHub emits a single "last" link (earlier query parameters
such as `&sha=...` and earlier links such as `rel="next"` are allowed) —
the reported commit count is N; on a status-200 response with no `Link`
header it is the number of items in the returned page. -/
theorem dashboard_commit_count_spec :
    (∀ (resp : CommitsResponse) (ws ds post : List Char),
      resp.status = 200 →
      resp.link = some (String.mk (ws ++ (pagePat ++ (ds ++ (lastRelTail ++ post))))) →
      containsSeg lastRelTail ws = false → ds ≠ [] → (∀ c ∈ ds, c.isDigit = true) →
      dashCommitCount resp = digitsToNat ds) ∧
    (∀ resp : CommitsResponse, resp.status = 200 → resp.link = none →
      dashCommitCount resp = resp.body.length) ∧
    (∀ username repoName branch, ∃ a b,
      (commitsUrl username repoName branch).toList = a ++ "per_page=1".toList ++ b) := by
  refine ⟨?_, ?_, ?_⟩
  · intro resp ws ds post hst hlink hws hne hdig
    unfold dashCommitCount
    rw [if_pos hst, hlink]
    show (match searchLastPage (ws ++ (pagePat ++ (ds ++ (lastRelTail ++ post)))) with
          | some n => n
          | none => 0) = digitsToNat ds
    rw [searchLastPage_first ws ds post hws hne hdig]
  · intro resp hst hlink
    unfold dashCommitCount
    rw [if_pos hst, hlink]
  · intro username repoName branch
    refine ⟨("https://api.github.com/repos/" ++ username ++ "/" ++ repoName ++ "/commits?").toList,
      ("&sha=" ++ branch).toList, ?_⟩
    unfold commitsUrl
    simp only [String.toList, String.data_append]
    simp [List.append_assoc]

set_option maxRecDepth 4000 in
/-- C1 witness: a realistic header for the spec's scenario — the commits
response carries a full two-link `Link` header whose URLs keep the
request's `per_page=1&sha=main` parameters and whose first link is the
`rel="next"` one; the "last" link's `&page=7` yields commit count 7.  A 200
response with no `Link` header yields the page's item count. -/
theorem dashboard_commit_count_spec_witness :
    dashCommitCount
      ⟨200, some ("<https://api.github.com/repos/octocat/A/commits?per_page=1&sha=main&page=2>; rel=\"next\", " ++
        "<https://api.github.com/repos/octocat/A/commits?per_page=1&sha=main&page=7>; rel=\"last\""), []⟩ = 7 ∧
    dashCommitCount ⟨200, none, [()]⟩ = 1 := by
  constructor
  · have h := dashboard_commit_count_spec.1
      ⟨200, some ("<https://api.github.com/repos/octocat/A/commits?per_page=1&sha=main&page=2>; rel=\"next\", " ++
        "<https://api.github.com/repos/octocat/A/commits?per_page=1&sha=main&page=7>; rel=\"last\""), []⟩
      ("<https://api.github.com/repos/octocat/A/commits?per_page=1&sha=main&page=2>; rel=\"next\", " ++
        "<https://api.github.com/repos/octocat/A/commits?per_page=1&sha=main").toList
      ['7'] [] rfl (by decide) (by decide) (by decide) (by decide)
    exact h.trans (by decide)
  · exact dashboard_commit_count_spec.2.1 ⟨200, none, [()]⟩ rfl rfl

/-- C1 counterexample: a status-200 commits response whose `Link` header
does contain a "last" relation link with a `page=7` parameter (in the
spec's own display format) but where `page=7` is introduced by `?` rather
than `&`: the code's regex does not match and the reported commit count is
0, not 7. -/
theorem dashboard_commit_count_counterexample :
    specLinkHasLastPage "<https://api.github.com/repos/octocat/A/commits?page=7>; rel=\"last\"" 7 ∧
    dashCommitCount
      ⟨200, some "<https://api.github.com/repos/octocat/A/commits?page=7>; rel=\"last\"", []⟩ = 0 := by
  constructor
  · exact ⟨"<https://api.github.com/repos/octocat/A/commits?".toList, [], by decide⟩
  · decide

/-- C9 (amended): the dashboard fetcher's and the metrics endpoint's commit
counts agree on a status-200 commits response that either has no `Link`
header or whose `Link` header contains a segment the regex matches; they
need not agree otherwise. -/
theorem commit_count_refinement (resp : CommitsResponse) (hst : resp.status = 200) :
    (resp.link = none → dashCommitCount resp = metricsCommitCount resp) ∧
    (∀ l n, resp.link = some l → searchLastPage l.toList = some n →
      dashCommitCount resp = n ∧ metricsCommitCount resp = n) := by
  constructor
  · intro hlink
    unfold dashCommitCount metricsCommitCount
    rw [if_pos hst, hlink]
  · intro l n hlink hsearch
    unfold dashCommitCount metricsCommitCount
    rw [if_pos hst, hlink]
    constructor
    · show (match searchLastPage l.toList with | some n => n | none => 0) = n
      rw [hsearch]
    · show (match searchLastPage l.toList with | some n => n | none => 1) = n
      rw [hsearch]

/-- C9 witness: both counts are 7 on the spec's scenario header, and both
equal the page's item count when no `Link` header is present. -/
theorem commit_count_refinement_witness :
    dashCommitCount
      ⟨200, some "<https://api.github.com/repos/octocat/A/commits?per_page=1&page=7>; rel=\"last\"", []⟩ =
      metricsCommitCount
        ⟨200, some "<https://api.github.com/repos/octocat/A/commits?per_page=1&page=7>; rel=\"last\"", []⟩ ∧
    dashCommitCount ⟨200, none, [()]⟩ = metricsCommitCount ⟨200, none, [()]⟩ := by
  constructor
  · have h := (commit_count_refinement
      ⟨200, some "<https://api.github.com/repos/octocat/A/commits?per_page=1&page=7>; rel=\"last\"", []⟩
      rfl).2
      "<https://api.github.com/repos/octocat/A/commits?per_page=1&page=7>; rel=\"last\"" 7
      rfl (by decide)
    exact h.1.trans h.2.symm
  · exact (commit_count_refinement ⟨200, none, [()]⟩ rfl).1 rfl

/-- C9 counterexample: on a status-200 response whose `Link` header matches
nothing, the dashboard fetcher reports 0 while the metrics endpoint reports
1 — the two commit-count computations disagree. -/
theorem commit_count_refinement_counterexample :
    dashCommitCount ⟨200, some "x", []⟩ = 0 ∧
    metricsCommitCount ⟨200, some "x", []⟩ = 1 ∧
    dashCommitCount ⟨200, some "x", []⟩ ≠ metricsCommitCount ⟨200, some "x", []⟩ := by
  refine ⟨by decide, by decide, by decide⟩

/-- C4 (amended): the client adapter maps an upstream 404 to the NotFound
`HTTPException`, a 403 to the rate-limit/forbidden one, and any other
status in the `raise_for_status` range `[400, 600)` to an `HTTPException`
carrying the upstream status and body; any status outside that range —
the 2xx range but also 3xx responses such as 304, and nonstandard codes of
600 and above — raises no classified error and the function returns the
decoded body. -/
theorem api_request_error_mapping {J : Type} (resp : GResponse J) :
    (resp.status = 404 →
      github_api_request resp = .error ⟨404, "User or resource not found."⟩) ∧
    (resp.status = 403 →
      github_api_request resp = .error ⟨403, "API rate limit exceeded or access denied."⟩) ∧
    (400 ≤ resp.status → resp.status < 600 → resp.status ≠ 404 → resp.status ≠ 403 →
      github_api_request resp = .error ⟨resp.status, "GitHub API error: " ++ resp.text⟩) ∧
    (resp.status < 400 ∨ 600 ≤ resp.status → github_api_request resp = .ok resp.json) := by
  refine ⟨?_, ?_, ?_, ?_⟩
  · intro h
    unfold github_api_request
    rw [if_pos h]
  · intro h
    unfold github_api_request
    rw [if_neg (by omega), if_pos h]
  · intro hge hlt h404 h403
    have hok : respOk resp.status = false := by
      unfold respOk
      rw [if_pos ⟨hge, hlt⟩]
    unfold github_api_request
    rw [if_neg h404, if_neg h403, hok, if_pos rfl]
  · intro hout
    have h404 : resp.status ≠ 404 := by omega
    have h403 : resp.status ≠ 403 := by omega
    have hok : respOk resp.status = true := by
      unfold respOk
      rw [if_neg (by omega)]
    unfold github_api_request
    rw [if_neg h404, if_neg h403, hok, if_neg (by simp)]

/-- C4 witness: the mapping evaluated at a 404, a 403, a 500, a 200 and a
nonstandard 999 response. -/
theorem api_request_error_mapping_witness :
    github_api_request (J := ℕ) ⟨404, "", 0⟩ = .error ⟨404, "User or resource not found."⟩ ∧
    github_api_request (J := ℕ) ⟨403, "", 0⟩ =
      .error ⟨403, "API rate limit exceeded or access denied."⟩ ∧
    github_api_request (J := ℕ) ⟨500, "boom", 0⟩ = .error ⟨500, "GitHub API error: boom"⟩ ∧
    github_api_request (J := ℕ) ⟨200, "", 5⟩ = .ok 5 ∧
    github_api_request (J := ℕ) ⟨999, "", 3⟩ = .ok 3 :=
  ⟨(api_request_error_mapping ⟨404, "", 0⟩).1 rfl,
   (api_request_error_mapping ⟨403, "", 0⟩).2.1 rfl,
   (api_request_error_mapping ⟨500, "boom", 0⟩).2.2.1 (by decide) (by decide) (by decide)
     (by decide),
   (api_request_error_mapping ⟨200, "", 5⟩).2.2.2 (Or.inl (by decide)),
   (api_request_error_mapping ⟨999, "", 3⟩).2.2.2 (Or.inr (by decide))⟩

/-- C4 counterexample: an upstream 304 is not a 2xx response, yet the
adapter raises no classified error at all: `requests.Response.ok` is true
outside `[400, 600)`, so the function falls through to `return resp.json()`
(modelled as the response's decoded payload; on a real body-less 304 that
call itself fails with a decode error, but no UpstreamError carrying
status and body is produced either way). -/
theorem api_request_304_counterexample :
    github_api_request (J := ℕ) ⟨304, "redirect", 7⟩ = .ok 7 ∧
    ∀ e, github_api_request (J := ℕ) ⟨304, "redirect", 7⟩ ≠ .error e := by
  constructor
  · rfl
  · intro e h
    rw [show github_api_request (J := ℕ) ⟨304, "redirect", 7⟩ = .ok 7 from rfl] at h
    exact Except.noConfusion h

/-- C3: with a caller-supplied token, a successful ownership probe whose
login matches the requested username case-insensitively routes the
organization fetch through the authenticated-user endpoint; a probe
identifying a different user yields exactly the requested user's public
organizations; and a failing probe falls back to the public view instead
of failing the request. -/
theorem org_visibility_token_branch (username t : String) (api : OrgApi) :
    (∀ login os, api.authUser = .ok login → pyLower login = pyLower username →
      api.userOrgs = .ok os → get_github_user_orgs username (some t) api = .ok os) ∧
    (∀ login, api.authUser = .ok login → pyLower login ≠ pyLower username →
      get_github_user_orgs username (some t) api = api.publicOrgs) ∧
    (∀ e, api.authUser = .error e →
      get_github_user_orgs username (some t) api = api.publicOrgs) := by
  refine ⟨?_, ?_, ?_⟩
  · intro login os hprobe hmatch horgs
    unfold get_github_user_orgs
    rw [hprobe]
    show (match (if pyLower login = pyLower username then api.userOrgs else api.publicOrgs :
          Except HttpError (List Org)) with
        | .ok orgs => .ok orgs
        | .error _ => api.publicOrgs) = Except.ok os
    rw [if_pos hmatch, horgs]
  · intro login hprobe hdiff
    unfold get_github_user_orgs
    rw [hprobe]
    show (match (if pyLower login = pyLower username then api.userOrgs else api.publicOrgs :
          Except HttpError (List Org)) with
        | .ok orgs => .ok orgs
        | .error _ => api.publicOrgs) = api.publicOrgs
    rw [if_neg hdiff]
    cases h : api.publicOrgs with
    | ok os => rfl
    | error e => rfl
  · intro e hprobe
    unfold get_github_user_orgs
    rw [hprobe]
    show api.publicOrgs = api.publicOrgs
    rfl

/-- C3 witness: the spec's scenario — requesting organizations for "alice"
with a token that belongs to "bob" returns only alice's public
organizations; a matching token returns the authenticated-user
organizations; a failing probe falls back to the public view. -/
theorem org_visibility_token_branch_witness :
    get_github_user_orgs "alice" (some "tok")
      ⟨.ok "bob", .ok [⟨"secretOrg", "u1", "a1"⟩], .ok [⟨"publicOrg", "u2", "a2"⟩]⟩ =
      .ok [⟨"publicOrg", "u2", "a2"⟩] ∧
    get_github_user_orgs "Alice" (some "tok")
      ⟨.ok "alice", .ok [⟨"secretOrg", "u1", "a1"⟩], .ok [⟨"publicOrg", "u2", "a2"⟩]⟩ =
      .ok [⟨"secretOrg", "u1", "a1"⟩] ∧
    get_github_user_orgs "alice" (some "tok")
      ⟨.error ⟨403, "x"⟩, .ok [⟨"secretOrg", "u1", "a1"⟩], .ok [⟨"publicOrg", "u2", "a2"⟩]⟩ =
      .ok [⟨"publicOrg", "u2", "a2"⟩] :=
  ⟨(org_visibility_token_branch "alice" "tok" _).2.1 "bob" rfl (by decide),
   (org_visibility_token_branch "Alice" "tok" _).1 "alice" [⟨"secretOrg", "u1", "a1"⟩]
     rfl (by decide) rfl,
   (org_visibility_token_branch "alice" "tok" _).2.2 ⟨403, "x"⟩ rfl⟩

/-- C5: when the repository listing succeeds but decodes to an empty list,
both the dashboard and the proficiency operation return their
"no repositories" result at once, and the only request issued is the
single repository-listing call — no language or commit requests. -/
theorem empty_repo_list_short_circuits (username : String) (reposResp : ReposResponse)
    (langOf : RepoSummary → LangResponse) (commitsOf : RepoSummary → CommitsResponse)
    (parse : String → Option ℤ) (hst : reposResp.status = 200)
    (hempty : reposResp.repos = []) :
    github_dashboard_analysis username reposResp langOf commitsOf =
      (.noRepos username "No repositories found", [dashboardReposUrl username]) ∧
    get_github_proficiency username parse reposResp langOf =
      .ok (.noRepos username "No public repositories found", [proficiencyReposUrl username]) := by
  constructor
  · unfold github_dashboard_analysis
    rw [hst, hempty]
    rfl
  · unfold get_github_proficiency
    rw [hst, hempty]
    rfl

/-- C5 witness: the short-circuit evaluated on a concrete empty listing. -/
theorem empty_repo_list_short_circuits_witness :
    github_dashboard_analysis "octocat" ⟨200, "", []⟩ (fun _ => ⟨200, []⟩)
        (fun _ => ⟨200, none, []⟩) =
      (.noRepos "octocat" "No repositories found", [dashboardReposUrl "octocat"]) ∧
    get_github_proficiency "octocat" (fun _ => none) ⟨200, "", []⟩ (fun _ => ⟨200, []⟩) =
      .ok (.noRepos "octocat" "No public repositories found",
        [proficiencyReposUrl "octocat"]) :=
  empty_repo_list_short_circuits "octocat" ⟨200, "", []⟩ (fun _ => ⟨200, []⟩)
    (fun _ => ⟨200, none, []⟩) (fun _ => none) rfl rfl

/-- C6: a non-200 languages response makes `fetch_repo_details` report an
empty language list while every other field of the repository's result is
still produced, and — for any language oracle whatsoever — a successful
non-empty listing still yields the dashboard result rather than an error,
so the batch is not aborted. -/
theorem lang_fetch_failure_degrades (repo : RepoSummary) (langResp : LangResponse)
    (commitsResp : CommitsResponse) (hfail : langResp.status ≠ 200) :
    (fetch_repo_details repo langResp commitsResp).languages = [] ∧
    (fetch_repo_details repo langResp commitsResp).name = repo.name ∧
    (fetch_repo_details repo langResp commitsResp).url = repo.html_url ∧
    (fetch_repo_details repo langResp commitsResp).stars = repo.stargazers_count ∧
    (fetch_repo_details repo langResp commitsResp).forks = repo.forks_count ∧
    (∀ username reposResp langOf commitsOf, reposResp.status = 200 →
      reposResp.repos ≠ [] →
      (github_dashboard_analysis username reposResp langOf commitsOf).1.isErr = false) := by
  refine ⟨?_, rfl, rfl, rfl, rfl, ?_⟩
  · unfold fetch_repo_details
    rw [if_neg hfail]
  · intro username reposResp langOf commitsOf hst hne
    unfold github_dashboard_analysis
    rw [hst]
    have : reposResp.repos.isEmpty = false := by
      cases h : reposResp.repos with
      | nil => exact absurd h hne
      | cons a l => rfl
    simp only [this, ne_eq, not_true_eq_false, if_false, Bool.false_eq_true]
    rfl

/-- C6 witness: a 500 languages response for one repository degrades to an
empty language list, and the surrounding dashboard call still succeeds. -/
theorem lang_fetch_failure_degrades_witness :
    (fetch_repo_details ⟨"A", "u", 1, 2, some "main", "lu", none, "octocat", false⟩
        ⟨500, [("Python", 10)]⟩ ⟨200, none, [()]⟩).languages = [] ∧
    (github_dashboard_analysis "octocat"
        ⟨200, "", [⟨"A", "u", 1, 2, some "main", "lu", none, "octocat", false⟩]⟩
        (fun _ => ⟨500, [("Python", 10)]⟩) (fun _ => ⟨200, none, [()]⟩)).1.isErr = false := by
  have h := lang_fetch_failure_degrades
    ⟨"A", "u", 1, 2, some "main", "lu", none, "octocat", false⟩
    ⟨500, [("Python", 10)]⟩ ⟨200, none, [()]⟩ (by decide)
  exact ⟨h.1, h.2.2.2.2.2 "octocat"
    ⟨200, "", [⟨"A", "u", 1, 2, some "main", "lu", none, "octocat", false⟩]⟩
    (fun _ => ⟨500, [("Python", 10)]⟩) (fun _ => ⟨200, none, [()]⟩) rfl (by decide)⟩

/-- C8: for every completion order that is a permutation of the task
indices, the list joined by the gather model has the same length as the
input repository list and its i-th element is the per-repository detail
result of the i-th input repository. -/
theorem gather_preserves_input_order (langOf : RepoSummary → LangResponse)
    (commitsOf : RepoSummary → CommitsResponse) (xs : List RepoSummary) (order : List ℕ)
    (h : order.Perm (List.range xs.length)) :
    asyncGather (fun r => fetch_repo_details r (langOf r) (commitsOf r)) xs order =
      xs.map (fun r => fetch_repo_details r (langOf r) (commitsOf r)) ∧
    (asyncGather (fun r => fetch_repo_details r (langOf r) (commitsOf r)) xs order).length =
      xs.length := by
  have heq := asyncGather_eq_map (fun r => fetch_repo_details r (langOf r) (commitsOf r)) xs order h
  exact ⟨heq, by rw [heq, List.length_map]⟩

/-- C8 witness: a two-repository batch whose fetches complete in reversed
order still joins into the input order. -/
theorem gather_preserves_input_order_witness :
    asyncGather (fun r => fetch_repo_details r (⟨200, [("Python", 10)]⟩ : LangResponse)
        (⟨200, none, [()]⟩ : CommitsResponse))
      [⟨"A", "uA", 1, 2, some "main", "luA", none, "octocat", false⟩,
       ⟨"B", "uB", 3, 4, some "main", "luB", none, "octocat", false⟩] [1, 0] =
      [fetch_repo_details ⟨"A", "uA", 1, 2, some "main", "luA", none, "octocat", false⟩
        ⟨200, [("Python", 10)]⟩ ⟨200, none, [()]⟩,
       fetch_repo_details ⟨"B", "uB", 3, 4, some "main", "luB", none, "octocat", false⟩
        ⟨200, [("Python", 10)]⟩ ⟨200, none, [()]⟩] :=
  (gather_preserves_input_order (fun _ => ⟨200, [("Python", 10)]⟩)
    (fun _ => ⟨200, none, [()]⟩)
    [⟨"A", "uA", 1, 2, some "main", "luA", none, "octocat", false⟩,
     ⟨"B", "uB", 3, 4, some "main", "luB", none, "octocat", false⟩] [1, 0] (by decide)).1

theorem buildRepoModels_length (l : List RepoSummary) (ms : List RepoModel)
    (h : buildRepoModels l = .ok ms) : ms.length = l.length := by
  induction l generalizing ms with
  | nil =>
    rw [buildRepoModels] at h
    injection h with h'
    subst h'
    rfl
  | cons r rest ih =>
    rw [buildRepoModels] at h
    cases hr : toRepoModel r with
    | error e =>
      rw [hr] at h
      simp at h
    | ok m =>
      rw [hr] at h
      cases hb : buildRepoModels rest with
      | error e =>
        rw [hb] at h
        simp at h
      | ok ms' =>
        rw [hb] at h
        injection h with h'
        subst h'
        simp [ih ms' hb]

/-- C10: on a successful call of the private-repositories operation the
result takes one of two shapes: a bare empty list when no fetched
repository is both owned by the requested username (case-insensitively)
and private, and otherwise — when every filtered entry passes the pydantic
`Repo` validation (a validation failure is a 500 error, not a success) —
a summary object whose `private_repositories_count` equals the length of
its `private_repositories` list (which is the number of filtered
repositories). -/
theorem private_repos_two_shapes (username token : String)
    (userRepos : Except HttpError (List RepoSummary)) (verifyUser : Except HttpError Unit)
    (rs : List RepoSummary) (htok : token ≠ "") (hrepos : userRepos = .ok rs)
    (hverify : verifyUser = .ok ()) :
    (rs.filter (fun r => pyLower r.owner_login == pyLower username && r.isPrivate) = [] →
      get_private_repos username token userRepos verifyUser = .ok .emptyList) ∧
    (∀ f models,
      rs.filter (fun r => pyLower r.owner_login == pyLower username && r.isPrivate) = f →
      f ≠ [] → buildRepoModels f = .ok models →
      get_private_repos username token userRepos verifyUser =
        .ok (.summary username models.length models) ∧
      models.length = f.length) ∧
    (∀ f e,
      rs.filter (fun r => pyLower r.owner_login == pyLower username && r.isPrivate) = f →
      f ≠ [] → buildRepoModels f = .error e →
      get_private_repos username token userRepos verifyUser =
        .error ⟨500, "Error fetching private repositories: " ++ e⟩) := by
  have hfneg : ∀ f : List RepoSummary, f ≠ [] → f.isEmpty = false := by
    intro f hne
    cases f with
    | nil => exact absurd rfl hne
    | cons a l => rfl
  refine ⟨?_, ?_, ?_⟩
  · intro hfilter
    unfold get_private_repos
    rw [if_neg htok, hrepos]
    simp only [hfilter, List.isEmpty_nil, if_pos, hverify]
  · intro f models hfilter hne hbuild
    refine ⟨?_, buildRepoModels_length f models hbuild⟩
    unfold get_private_repos
    rw [if_neg htok, hrepos]
    simp only [hfilter, hfneg f hne, Bool.false_eq_true, if_false, hbuild]
  · intro f e hfilter hne hbuild
    unfold get_private_repos
    rw [if_neg htok, hrepos]
    simp only [hfilter, hfneg f hne, Bool.false_eq_true, if_false, hbuild]

/-- C10 witness: both success shapes at concrete inputs — a listing with no
private repository owned by "alice" gives the bare empty list; a listing
with one validated repository gives the summary object with count 1. -/
theorem private_repos_two_shapes_witness :
    get_private_repos "alice" "tok"
      (.ok [⟨"A", "u", 0, 0, none, "lu", none, "bob", true⟩]) (.ok ()) = .ok .emptyList ∧
    get_private_repos "alice" "tok"
      (.ok [⟨"A", "u", 0, 0, none, "lu", some "2024-01-01T00:00:00Z", "Alice", true⟩])
      (.ok ()) =
      .ok (.summary "alice" 1 [⟨"A", "u", 0, 0, "2024-01-01T00:00:00Z"⟩]) := by
  constructor
  · exact (private_repos_two_shapes "alice" "tok"
      (.ok [⟨"A", "u", 0, 0, none, "lu", none, "bob", true⟩]) (.ok ())
      [⟨"A", "u", 0, 0, none, "lu", none, "bob", true⟩] (by decide) rfl rfl).1 (by decide)
  · exact ((private_repos_two_shapes "alice" "tok"
      (.ok [⟨"A", "u", 0, 0, none, "lu", some "2024-01-01T00:00:00Z", "Alice", true⟩])
      (.ok ())
      [⟨"A", "u", 0, 0, none, "lu", some "2024-01-01T00:00:00Z", "Alice", true⟩]
      (by decide) rfl rfl).2.1
      [⟨"A", "u", 0, 0, none, "lu", some "2024-01-01T00:00:00Z", "Alice", true⟩]
      [⟨"A", "u", 0, 0, "2024-01-01T00:00:00Z"⟩] (by decide) (by decide) rfl).1

/-- C2 (amended): the denominator defaults to 1 when the language map has
zero total bytes; each entry of `language_percentage` is
`round(bytes / total * 100, 2)`; and when the total is positive, the
percentages sum to 100 within `k * 0.005` where `k` is the number of
languages (the ±0.1 tolerance of the claim holds only for `k ≤ 20`). -/
theorem language_percentage_spec (m : List (String × ℕ)) :
    ((m.map Prod.snd).sum = 0 → totalBytesDen m = 1) ∧
    (∀ p ∈ m, (p.1, round2 ((p.2 : ℚ) / totalBytesDen m * 100)) ∈ lang_percentage m) ∧
    (0 < (m.map Prod.snd).sum →
      |((lang_percentage m).map Prod.snd).sum - 100| ≤ (m.length : ℚ) * (1/200)) := by
  refine ⟨?_, ?_, ?_⟩
  · intro h
    unfold totalBytesDen
    rw [h]
    rfl
  · intro p hp
    unfold lang_percentage
    exact List.mem_map_of_mem _ hp
  · intro hpos
    have hmm : (lang_percentage m).map Prod.snd =
        m.map (fun p => round2 ((p.2 : ℚ) / totalBytesDen m * 100)) := by
      unfold lang_percentage
      rw [List.map_map]
      rfl
    have hpt : ∀ a ∈ m, |round2 ((a.2 : ℚ) / totalBytesDen m * 100) -
        (a.2 : ℚ) / totalBytesDen m * 100| ≤ 1/200 := fun a _ => round2_close _
    have hclose := sum_map_close
      (fun p : String × ℕ => round2 ((p.2 : ℚ) / totalBytesDen m * 100))
      (fun p : String × ℕ => (p.2 : ℚ) / totalBytesDen m * 100) (1/200) m hpt
    rw [sum_exact_pcts m hpos] at hclose
    rw [hmm]
    exact hclose

/-- C2 witness: a single-language map sums to 100 within the bound, and an
empty map gets denominator 1. -/
theorem language_percentage_spec_witness :
    |((lang_percentage [("Python", 3)]).map Prod.snd).sum - 100| ≤
      (([("Python", 3)] : List (String × ℕ)).length : ℚ) * (1/200) ∧
    totalBytesDen ([] : List (String × ℕ)) = 1 :=
  ⟨(language_percentage_spec [("Python", 3)]).2.2 (by decide),
   (language_percentage_spec []).1 rfl⟩

/-- A 60-language byte map, one byte per language. -/
def cexLangMap : List (String × ℕ) := (List.range 60).map (fun i => (toString i, 1))

/-- C2 counterexample: for 60 languages of one byte each, every percentage
rounds `5/3`% up to `1.67`%, so the percentages sum to `100.2` — more than
`0.1` away from 100, refuting the claimed tolerance. -/
theorem language_percentage_sum_counterexample :
    0 < (cexLangMap.map Prod.snd).sum ∧
    ((lang_percentage cexLangMap).map Prod.snd).sum = 501/5 ∧
    ¬ |((lang_percentage cexLangMap).map Prod.snd).sum - 100| ≤ 1/10 := by
  have hsnd : cexLangMap.map Prod.snd = List.replicate 60 1 := by
    unfold cexLangMap
    rw [List.map_map]
    rfl
  have hsum_nat : (cexLangMap.map Prod.snd).sum = 60 := by
    rw [hsnd]
    rfl
  have htot : totalBytesDen cexLangMap = 60 := by
    unfold totalBytesDen
    rw [hsum_nat]
    norm_num
  have hval : ∀ p ∈ cexLangMap, round2 ((p.2 : ℚ) / totalBytesDen cexLangMap * 100) =
      167/100 := by
    intro p hp
    rcases List.mem_map.1 hp with ⟨i, _, rfl⟩
    rw [htot]
    have harg : ((1 : ℕ) : ℚ) / 60 * 100 = 5/3 := by norm_num
    rw [show ((((toString i, 1) : String × ℕ)).2 : ℚ) = ((1 : ℕ) : ℚ) from rfl, harg,
      round2_five_thirds]
  have hmap : (lang_percentage cexLangMap).map Prod.snd =
      cexLangMap.map (fun p => round2 ((p.2 : ℚ) / totalBytesDen cexLangMap * 100)) := by
    unfold lang_percentage
    rw [List.map_map]
    rfl
  have hlen : cexLangMap.length = 60 := by
    unfold cexLangMap
    rw [List.length_map, List.length_range]
  have hsum : ((lang_percentage cexLangMap).map Prod.snd).sum = 501/5 := by
    rw [hmap, List.map_congr_left hval, List.map_const', hlen, List.sum_replicate,
      nsmul_eq_mul]
    norm_num
  refine ⟨by rw [hsum_nat]; norm_num, hsum, ?_⟩
  rw [hsum, show (501 : ℚ)/5 - 100 = 1/5 from by norm_num,
    abs_of_pos (by norm_num : (0:ℚ) < 1/5)]
  norm_num

/-- A repository whose `updated_at` is present but not a valid ISO-8601
timestamp. -/
def badTsRepo : RepoSummary :=
  ⟨"A", "u", 0, 0, some "main", "lu", some "not-a-timestamp", "octocat", false⟩

/-- C7: evaluating the proficiency operation at a repository whose
timestamp is malformed (`parse` returns `none`, modelling
`datetime.fromisoformat` raising `ValueError`) aborts the whole request
with the uncaught exception instead of skipping that repository; on
well-formed timestamps the recency score is the sum of the per-repository
`max(0, 100 - days_since_last_update)` contributions (30 days → 70,
150 days → 0, total 70). -/
theorem malformed_timestamp_aborts_request :
    get_github_proficiency "octocat" (fun _ => none) ⟨200, "", [badTsRepo]⟩
      (fun _ => ⟨200, []⟩) = .error "ValueError: Invalid isoformat string" ∧
    get_github_proficiency "octocat" (fun s => if s = "tsA" then some 30 else some 150)
      ⟨200, "",
        [⟨"A", "uA", 1, 2, some "main", "luA", some "tsA", "octocat", false⟩,
         ⟨"B", "uB", 3, 4, some "main", "luB", some "tsB", "octocat", false⟩]⟩
      (fun _ => ⟨500, []⟩) =
      .ok (.profile "octocat" 2 0 4 6 70 [] [],
        [proficiencyReposUrl "octocat", "luA", "luB"]) := by
  constructor
  · rfl
  · rfl

end Citi
